import Mathlib

/-!
Verification development for the skill2earn-padi recommendation core.

Shallow embedding of:
  * `src/lib/rulesEngine.ts` (`runRecommendationPipeline` and its helpers),
  * `src/lib/recommendWithGemini.ts` (`shortlistWithDeltas`,
    `recommendWithGeminiOrFallback`),
  * `src/app/api/providers/route.ts` (the POST handler's pure core:
    ranking, physical-delivery filter, sort, truncation, dedupe and the
    locked/unlocked field projections).

JavaScript numbers are modelled as `Int` (all values occurring here are
integers) except inside stage-3 psychometric scoring, where the exact
rational arithmetic of the source's constants (0.3, 0.7, ...) is modelled
with `Rat` and `Math.round` as `⌊q + 1/2⌋` (the two agree on every value
the pipeline produces, since all intermediate values are non-negative).
`Array.prototype.sort` (stable in JS) is modelled by a stable insertion
sort `stableSortBy`, where `precede x y` means the comparator returns a
negative number on `(x, y)`.
-/

namespace S2E

/-- Stable insertion step: `a` is placed before the first element `b`
that does not strictly precede it (`precede b a = false`). -/
def insertS (precede : α → α → Bool) (a : α) : List α → List α
  | [] => [a]
  | b :: l => if precede b a then b :: insertS precede a l else a :: b :: l

/-- Stable sort: model of JS `Array.prototype.sort` with a comparator.
`precede x y = true` iff the comparator is negative on `(x, y)`. -/
def stableSortBy (precede : α → α → Bool) : List α → List α
  | [] => []
  | a :: l => insertS precede a (stableSortBy precede l)

/-- `List Char` prefix test (model of substring search). -/
def isPrefCL : List Char → List Char → Bool
  | [], _ => true
  | _ :: _, [] => false
  | a :: n, b :: h => a == b && isPrefCL n h

/-- `List Char` substring containment. -/
def containsCL (needle : List Char) : List Char → Bool
  | [] => needle.isEmpty
  | c :: t => isPrefCL needle (c :: t) || containsCL needle t

/-- Model of JS `hay.includes(needle)` (on already-lowercased strings
where the source lowercases). -/
def strIncludes (hay needle : String) : Bool :=
  containsCL needle.toList hay.toList

def lowerChar (c : Char) : Char :=
  if 'A' ≤ c ∧ c ≤ 'Z' then Char.ofNat (c.toNat + 32) else c

/-- Model of JS `String.prototype.toLowerCase` (ASCII range, which covers
every string the source lowercases: prerequisite tags, category and
industry text compared against ASCII keywords). -/
def lowerStr (s : String) : String := String.mk (s.toList.map lowerChar)

/-- Model of JS `Number.prototype.toLocaleString` digit grouping on a
non-negative integer: groups of three digits separated by commas. -/
def grp3 : List Char → List Char
  | a :: b :: c :: d :: rest => a :: b :: c :: ',' :: grp3 (d :: rest)
  | l => l

def formatNaira (n : Int) : String :=
  let digits := (Nat.toDigits 10 n.natAbs)
  let grouped := (grp3 digits.reverse).reverse
  (if n < 0 then "-" else "") ++ String.mk grouped

/-- Exact fraction (no normalisation; denominators stay positive
throughout this development). The stage-3 psychometric scoring of the
source works on JS numbers whose values here are exact decimals
(0.2 ... 1.0 and their weighted sums), so exact fraction arithmetic is a
faithful model of it. -/
structure Frac where
  num : Int
  den : Int
deriving DecidableEq

def fAdd (a b : Frac) : Frac := ⟨a.num * b.den + b.num * a.den, a.den * b.den⟩

def fMul (a b : Frac) : Frac := ⟨a.num * b.num, a.den * b.den⟩

/-- `a ≤ b` for positive denominators. -/
def fLe (a b : Frac) : Bool := decide (a.num * b.den ≤ b.num * a.den)

def fMin (a b : Frac) : Frac := if fLe a b then a else b

def fMax (a b : Frac) : Frac := if fLe a b then b else a

/-- Floor of a fraction with positive denominator. -/
def fFloor (a : Frac) : Int := Int.fdiv a.num a.den

/-- JS `Math.round` on the (non-negative) values occurring here:
round half up. -/
def jsRound (q : Frac) : Int := fFloor (fAdd q ⟨1, 2⟩)

end S2E

namespace S2E

/-! ### Data model of `src/lib/rulesEngine.ts` -/

inductive UtilityReliability | none | outages | stable
deriving DecidableEq

inductive EquipmentAccess | none | smartphone_only | laptop_pc
deriving DecidableEq

inductive SeedCapitalBracket | below_50 | b50_100 | b100_200 | b200_400 | above_400
deriving DecidableEq

inductive WorkspacePreference | hands_on | desk | mix
deriving DecidableEq

inductive SocialBattery | Introvert | Extrovert | Mix
deriving DecidableEq

/-- Shared by `mobility` and `work_location` (same string union in the source). -/
inductive Mobility | Remote | OnSite | Hybrid
deriving DecidableEq

inductive ProblemInstinct | Creative | Analytical | Adversarial
deriving DecidableEq

inductive MentalModel | Creative | Analytical | Structural
deriving DecidableEq

/-- `"Low" | "Moderate" | "High"`, shared by patience and math/logic fields. -/
inductive PatienceLevel | Low | Moderate | High
deriving DecidableEq

inductive LearningStyle | set_and_forget | continuous
deriving DecidableEq

inductive IncomeUrgency | quick | long
deriving DecidableEq

/-- Shared by `primary_interest` and `primary_goal` (same string union). -/
inductive PrimaryInterest | Build | Solve | Protect | Create | Connect
deriving DecidableEq

inductive PowerNeed | Low | Medium | High
deriving DecidableEq

inductive InternetNeed | Zero | Low | Medium | High
deriving DecidableEq

structure AssessmentPayload where
  session_id : Option String
  state : String
  city : String
  area : Option String
  equipment_access : EquipmentAccess
  computer_proficiency : Option Int
  seed_capital : SeedCapitalBracket
  utility_reliability : UtilityReliability
  workspace_preference : WorkspacePreference
  social_battery : SocialBattery
  mobility : Mobility
  problem_instinct : ProblemInstinct
  math_logic_comfort : PatienceLevel
  patience_level : PatienceLevel
  learning_style : LearningStyle
  income_urgency : IncomeUrgency
  primary_interest : PrimaryInterest
deriving DecidableEq

structure SkillRow where
  skill_code : String
  name : String
  category : String
  industry : String
  min_budget_naira : Int
  max_budget_naira : Option Int
  power_need : PowerNeed
  internet_need : InternetNeed
  personality : SocialBattery
  prerequisite_proficiency : String
  primary_goal : PrimaryInterest
  mental_model : MentalModel
  math_logic_intensity : PatienceLevel
  patience_level : PatienceLevel
  daily_activities : Option String
  time_to_learn_months : Option Int
  time_to_earn_months : Option Int
  work_location : Mobility
  portability : String
  learning_curve : String
  important_constraints : Option String
deriving DecidableEq

structure Recommendation where
  skill_code : String
  skill_name : String
  score : Int
  reasons : List String
  badges : List String
  warnings : List String
deriving DecidableEq

structure Stage2Item where
  skill : SkillRow
  stage2Delta : Int
deriving DecidableEq

def budgetMaxFromBracket : SeedCapitalBracket → Int
  | .below_50 => 49999
  | .b50_100 => 100000
  | .b100_200 => 200000
  | .b200_400 => 400000
  | .above_400 => 999999999

def clamp01 (x : Frac) : Frac := fMax ⟨0, 1⟩ (fMin ⟨1, 1⟩ x)

def prereqRank (x : String) : Int :=
  let v := lowerStr x
  if strIncludes v "basic_smartphone" then 0
  else if strIncludes v "basic_computer" then 1
  else if strIncludes v "advanced_pc" then 2
  else 1

def powerNeedRank : PowerNeed → Int
  | .Low => 1
  | .Medium => 2
  | .High => 3

def internetNeedRank : InternetNeed → Int
  | .Zero => 0
  | .Low => 1
  | .Medium => 2
  | .High => 3

def digitalKeywords : List String :=
  ["digital", "tech", "data", "software", "program", "design", "ui", "ux",
   "analytics", "cyber", "network"]

def isDigitalish (skill : SkillRow) : Bool :=
  let prereq := lowerStr skill.prerequisite_proficiency
  if strIncludes prereq "basic_computer" || strIncludes prereq "advanced_pc" then true
  else
    let cat := lowerStr skill.category
    let ind := lowerStr skill.industry
    digitalKeywords.any (fun k => strIncludes cat k || strIncludes ind k)

def scorePersonality (user : SocialBattery) (skill : SocialBattery) : Frac :=
  if user = skill then ⟨1, 1⟩
  else if user = .Mix ∨ skill = .Mix then ⟨7, 10⟩
  else ⟨2, 10⟩

def scoreMentalModel (user : ProblemInstinct) (skill : MentalModel) : Frac :=
  match user, skill with
  | .Creative, .Creative => ⟨1, 1⟩
  | .Analytical, .Analytical => ⟨1, 1⟩
  | .Analytical, .Structural => ⟨7, 10⟩
  | .Adversarial, .Structural => ⟨7, 10⟩
  | .Adversarial, .Analytical => ⟨4, 10⟩
  | .Creative, .Analytical => ⟨3, 10⟩
  | .Creative, .Structural => ⟨3, 10⟩
  | _, _ => ⟨2, 10⟩

def scoreInterest (user : PrimaryInterest) (skill : PrimaryInterest) : Frac :=
  if user = skill then ⟨1, 1⟩
  else if user = .Build ∧ skill = .Solve then ⟨6, 10⟩
  else if user = .Solve ∧ skill = .Build then ⟨6, 10⟩
  else if user = .Protect ∧ skill = .Solve then ⟨5, 10⟩
  else if user = .Create ∧ skill = .Connect then ⟨5, 10⟩
  else if user = .Connect ∧ skill = .Create then ⟨5, 10⟩
  else ⟨2, 10⟩

def scorePatience (user : PatienceLevel) (skill : PatienceLevel) : Frac :=
  if user = skill then ⟨1, 1⟩
  else if (user = .Low ∧ skill = .Moderate) ∨ (user = .Moderate ∧ skill = .Low) then ⟨6, 10⟩
  else if (user = .High ∧ skill = .Moderate) ∨ (user = .Moderate ∧ skill = .High) then ⟨6, 10⟩
  else ⟨2, 10⟩

/-! ### `runRecommendationPipeline` (rulesEngine.ts, lines 184-340) -/

/-- Stage-1 hard filter predicate (tool check then budget check). -/
def stage1Keep (user : AssessmentPayload) (s : SkillRow) : Bool :=
  if (user.equipment_access = .none ∨ user.equipment_access = .smartphone_only)
      ∧ prereqRank s.prerequisite_proficiency ≥ 1 then false
  else if budgetMaxFromBracket user.seed_capital < s.min_budget_naira then false
  else true

def stage1Filter (user : AssessmentPayload) (skills : List SkillRow) : List SkillRow :=
  skills.filter (stage1Keep user)

/-- `skills.slice().sort((a, b) => a.min_budget_naira - b.min_budget_naira)`. -/
def sortByBudget (skills : List SkillRow) : List SkillRow :=
  stableSortBy (fun a b => decide (a.min_budget_naira < b.min_budget_naira)) skills

def fallbackReason1 : String := "Your constraints remove most options right now."

def fallbackReason2 : String :=
  "This is one of the lowest-cost options in the dataset. Consider increasing budget or improving tools access."

def fallbackWarning : String := "Most skills were filtered out based on tools/budget."

def fallbackRec (s : SkillRow) : Recommendation :=
  { skill_code := s.skill_code
    skill_name := s.name
    score := 1
    reasons := [fallbackReason1, fallbackReason2]
    badges := []
    warnings := [fallbackWarning] }

/-- Stage-2 additive delta (utility reliability, mobility, workspace heuristic). -/
def stage2Delta (user : AssessmentPayload) (skill : SkillRow) : Int :=
  let pRank := powerNeedRank skill.power_need
  let iRank := internetNeedRank skill.internet_need
  let d1 : Int :=
    if user.utility_reliability = .none then
      (if pRank ≥ 2 then -15 else 0) + (if iRank ≥ 2 then -15 else 0)
    else if user.utility_reliability = .outages then
      (if pRank = 3 then -10 else 0) + (if iRank = 3 then -10 else 0)
    else 0
  let d2 : Int :=
    match user.mobility with
    | .Remote =>
      match skill.work_location with
      | .Remote => 8
      | .Hybrid => 4
      | _ => -10
    | .OnSite => if skill.work_location = .OnSite then 6 else 0
    | .Hybrid => if skill.work_location = .Hybrid then 6 else 0
  let digital := isDigitalish skill
  let d3 : Int :=
    (if user.workspace_preference = .desk ∧ digital then 4 else 0)
    + (if user.workspace_preference = .hands_on ∧ ¬digital then 4 else 0)
    + (if user.workspace_preference = .desk ∧ ¬digital then -2 else 0)
    + (if user.workspace_preference = .hands_on ∧ digital then -2 else 0)
  d1 + d2 + d3

/-- Stage-2 hard-elimination filter predicate (`true` = keep): only removes
a candidate when utility is `none` and both needs are maxed. -/
def stage2Keep (user : AssessmentPayload) (skill : SkillRow) : Bool :=
  if user.utility_reliability ≠ .none then true
  else ¬(powerNeedRank skill.power_need = 3 ∧ internetNeedRank skill.internet_need = 3)

def stage2List (user : AssessmentPayload) (shortlist : List SkillRow) : List Stage2Item :=
  (shortlist.map (fun skill => ⟨skill, stage2Delta user skill⟩)).filter
    (fun it => stage2Keep user it.skill)

structure ScoredItem where
  skill : SkillRow
  score : Int
  reasons : List String
deriving DecidableEq

def reasonPersonality : String := "Matches your social work style (introvert/extrovert mix)."
def reasonMental : String := "Matches how you naturally solve problems."
def reasonInterest : String := "Matches what you find most interesting."
def reasonPatience : String := "Matches your patience level for learning."
def reasonEnvironment : String := "Your utility reliability was considered in this recommendation."

def reasonBudget (s : SkillRow) : String :=
  "Fits within your seed capital (min ₦" ++ formatNaira s.min_budget_naira ++ ")."

/-- Stage-3 psychometric scoring of one stage-2 item. -/
def scoreSkill (user : AssessmentPayload) (it : Stage2Item) : ScoredItem :=
  let P := scorePersonality user.social_battery it.skill.personality
  let M := scoreMentalModel user.problem_instinct it.skill.mental_model
  let I := scoreInterest user.primary_interest it.skill.primary_goal
  let Pa := scorePatience user.patience_level it.skill.patience_level
  let base := fAdd (fAdd (fAdd (fMul ⟨3, 10⟩ P) (fMul ⟨3, 10⟩ M)) (fMul ⟨2, 10⟩ I))
    (fMul ⟨2, 10⟩ Pa)
  let score0 := jsRound (fMul (clamp01 base) ⟨100, 1⟩)
  let score := max 0 (min 100 (score0 + it.stage2Delta))
  let reasons :=
    (if fLe ⟨9, 10⟩ P then [reasonPersonality] else [])
    ++ (if fLe ⟨9, 10⟩ M then [reasonMental] else [])
    ++ (if fLe ⟨9, 10⟩ I then [reasonInterest] else [])
    ++ (if fLe ⟨9, 10⟩ Pa then [reasonPatience] else [])
    ++ [reasonBudget it.skill]
    ++ (if user.utility_reliability ≠ .stable then [reasonEnvironment] else [])
  { skill := it.skill, score := score, reasons := reasons }

/-- Stage 3 + the in-place `scored.sort((a, b) => b.score - a.score)`. -/
def scoredSorted (user : AssessmentPayload) (l : List Stage2Item) : List ScoredItem :=
  stableSortBy (fun a b => decide (b.score < a.score)) (l.map (scoreSkill user))

def badgeFundamentals : String := "Start with Computer Fundamentals first"

def warnUrgency : String :=
  "This is a strong long-term match, but it may take longer than 3 months to start earning."

/-- Stage-4 per-item annotation (badges + urgency warning). -/
def annotate (user : AssessmentPayload) (it : ScoredItem) : Recommendation :=
  let pcLow : Bool :=
    match user.computer_proficiency with
    | some pc => decide (pc ≤ 2)
    | none => false
  let badges :=
    if user.equipment_access = .laptop_pc ∧ pcLow ∧ isDigitalish it.skill then
      [badgeFundamentals]
    else []
  let tEarnLate : Bool :=
    match it.skill.time_to_earn_months with
    | some t => decide (t > 3)
    | none => false
  let warnings :=
    if user.income_urgency = .quick ∧ tEarnLate then [warnUrgency] else []
  { skill_code := it.skill.skill_code
    skill_name := it.skill.name
    score := it.score
    reasons := it.reasons
    badges := badges
    warnings := warnings }

def backupSuggestion (name2 : String) : String :=
  "Consider also: " ++ name2 ++ " as a faster-earning backup while you build your top skill."

/-- The cross-recommendation "backup skill" push onto `out[0].warnings`.
The source guards with `topSkill?.time_to_earn_months &&` (truthiness,
hence `t ≠ 0`) before `> 3`. -/
def crossWarn (user : AssessmentPayload) (scored : List ScoredItem)
    (out : List Recommendation) : List Recommendation :=
  if user.income_urgency = .quick ∧ out.length ≥ 2 then
    match out with
    | r1 :: r2 :: rest =>
      let topSkill := (scored.find? (fun x => x.skill.skill_code == r1.skill_code)).map (·.skill)
      let cond : Bool :=
        match topSkill with
        | some sk =>
          match sk.time_to_earn_months with
          | some t => decide (t ≠ 0) && decide (t > 3)
          | none => false
        | none => false
      if cond then
        { r1 with warnings := r1.warnings ++ [backupSuggestion r2.skill_name] } :: r2 :: rest
      else out
    | _ => out
  else out

def runRecommendationPipeline (user : AssessmentPayload) (skills : List SkillRow) :
    List Recommendation :=
  let stage1Shortlist := stage1Filter user skills
  if stage1Shortlist.isEmpty then
    ((sortByBudget skills).take 3).map fallbackRec
  else
    let scored := scoredSorted user (stage2List user stage1Shortlist)
    let out := (scored.take 5).map (annotate user)
    crossWarn user scored out

end S2E

namespace S2E

/-! ### `src/lib/recommendWithGemini.ts`

The helper functions (`budgetMaxFromBracket`, `prereqRank`,
`powerNeedRank`, `internetNeedRank`, `isDigitalish`) and the stage-1 /
stage-2 bodies in this file are textually identical to the ones in
`rulesEngine.ts`, so the embedding reuses the definitions above. -/

/-- Assoc-list model of a JS plain-object / `Map` assignment: replacing
the value at an existing key keeps its position, a new key is appended. -/
def upsert : List (String × β) → String → β → List (String × β)
  | [], k, v => [(k, v)]
  | (k0, v0) :: t, k, v =>
    if k0 = k then (k0, v) :: t else (k0, v0) :: upsert t k v

/-- Stage 1 of `shortlistWithDeltas`, including its 25-item budget
fallback (recommendWithGemini.ts lines 57-73). -/
def shortlistStage1 (user : AssessmentPayload) (skills : List SkillRow) : List SkillRow :=
  let stage1 := stage1Filter user skills
  if stage1.length > 0 then stage1
  else (sortByBudget skills).take 25

/-- `shortlistWithDeltas` (recommendWithGemini.ts lines 54-130): stage 1
with fallback, stage 2 deltas + hard elimination, delta record, then the
35-item shortlist sorted by delta descending. -/
def shortlistWithDeltas (user : AssessmentPayload) (skills : List SkillRow) :
    List SkillRow × List (String × Int) :=
  let stage2 := stage2List user (shortlistStage1 user skills)
  let stage2Deltas :=
    stage2.foldl (fun acc x => upsert acc x.skill.skill_code x.stage2Delta) []
  let shortlistSkills :=
    ((stableSortBy (fun a b => decide (b.stage2Delta < a.stage2Delta)) stage2).take 35).map
      (·.skill)
  (shortlistSkills, stage2Deltas)

/-! ### `src/lib/llmSchema.ts` (validated response shape) -/

structure LLMRec where
  skill_code : String
  score : Int
  reasons : List String
  badges : List String
  warnings : List String
deriving DecidableEq

structure LLMMeta where
  model : String
  version : String
deriving DecidableEq

structure LLMRecommendationResponse where
  recommendations : List LLMRec
  meta : LLMMeta
deriving DecidableEq

/-- Outcome of the whole `try` block of `recommendWithGeminiOrFallback`
up to and including schema validation: either some exception was thrown
(network error, empty text, non-JSON, schema mismatch — all caught by the
single `catch`), or a schema-validated response was obtained. -/
inductive LLMOutcome
  | failure
  | success (resp : LLMRecommendationResponse)

/-- The AI branch's candidate construction (recommendWithGemini.ts lines
195-208): filter to shortlist codes, map through `byCode`, take 5.
`new Map(entries)` lets a later duplicate key win, hence the
reverse-`find?` model of `byCode.get`. -/
def aiCandidates (shortlistSkills : List SkillRow) (v : LLMRecommendationResponse) :
    List Recommendation :=
  let allowed := shortlistSkills.map (·.skill_code)
  ((v.recommendations.filter (fun r => allowed.contains r.skill_code)).map
    (fun r =>
      { skill_code := r.skill_code
        skill_name :=
          match (shortlistSkills.reverse).find? (fun s => s.skill_code == r.skill_code) with
          | some s => s.name
          | none => r.skill_code
        score := r.score
        reasons := r.reasons
        badges := r.badges
        warnings := r.warnings })).take 5

/-- `recommendWithGeminiOrFallback` (recommendWithGemini.ts lines
152-215), with the LLM call's outcome made an explicit argument. -/
def recommendWithGeminiOrFallback (user : AssessmentPayload) (skills : List SkillRow)
    (llm : LLMOutcome) : List Recommendation :=
  let shortlistSkills := (shortlistWithDeltas user skills).1
  if shortlistSkills.isEmpty then runRecommendationPipeline user skills
  else
    match llm with
    | .failure => runRecommendationPipeline user skills
    | .success v =>
      let out := aiCandidates shortlistSkills v
      if out.isEmpty then runRecommendationPipeline user skills
      else out

end S2E

namespace S2E

/-! ### `src/app/api/providers/route.ts` (pure core of the POST handler) -/

inductive ProviderType | Individual | TrainingCenter
deriving DecidableEq

inductive DeliveryMode | Physical | Online | Hybrid
deriving DecidableEq

structure Provider where
  id : String
  name : String
  provider_type : ProviderType
  phone : Option String
  whatsapp : Option String
  state : String
  city : String
  area : Option String
  address : Option String
  physical_delivery_percent : Option Int
  mode_supported : Option DeliveryMode
  has_power_backup : Bool
  has_training_laptops : Bool
  has_internet : Bool
deriving DecidableEq

structure ProviderSkillRow where
  skill_code : String
  course_fee_min_ngn : Option Int
  course_fee_max_ngn : Option Int
  duration_weeks : Option Int
  physical_delivery_percent : Option Int
  mode_supported : Option DeliveryMode
  providers : Option Provider
deriving DecidableEq

/-- The locality part of the request body (`state`, `city`, optional `area`). -/
structure ProviderQuery where
  state : String
  city : String
  area : Option String
deriving DecidableEq

/-- One element of the handler's `mapped` array. -/
structure MappedItem where
  row : ProviderSkillRow
  p : Provider
  physicalPct : Int
  rank : Int
deriving DecidableEq

/-- `row.physical_delivery_percent ?? p.physical_delivery_percent ?? 0`. -/
def effectivePct (row : ProviderSkillRow) (p : Provider) : Int :=
  match row.physical_delivery_percent with
  | some v => v
  | none =>
    match p.physical_delivery_percent with
    | some v => v
    | none => 0

/-- The rank ladder (route.ts lines 159-168). `body.area &&` is JS
truthiness: an absent or empty `area` can never produce rank 1. -/
def rankOf (body : ProviderQuery) (p : Provider) : Int :=
  let areaMatch : Bool :=
    match body.area, p.area with
    | some a, some pa => decide (a ≠ "") && decide (pa = a)
    | _, _ => false
  if p.state = body.state ∧ p.city = body.city ∧ areaMatch then 1
  else if p.state = body.state ∧ p.city = body.city then 2
  else if p.state = body.state then 3
  else 99

/-- `mapped` (route.ts lines 149-184): rank each row with a provider,
drop rows below the 10% physical-delivery threshold, sort ascending by
rank, truncate to 10. -/
def rankRow (body : ProviderQuery) (row : ProviderSkillRow) : Option MappedItem :=
  match row.providers with
  | none => none
  | some p => some ⟨row, p, effectivePct row p, rankOf body p⟩

def mapped (body : ProviderQuery) (rows : List ProviderSkillRow) : List MappedItem :=
  (stableSortBy (fun a b => decide (a.rank < b.rank))
    ((rows.filterMap (rankRow body)).filter (fun x => decide (x.physicalPct ≥ 10)))).take 10

/-- One step of the `Map`-reduce dedupe (route.ts lines 189-192):
`Map.get` is `find?` on the assoc list, `Map.set` on an existing key is
the in-place `upsert`, on a fresh key an append. -/
def dedupeStep (acc : List (String × MappedItem)) (item : MappedItem) :
    List (String × MappedItem) :=
  match acc.find? (fun kv => kv.1 == item.p.id) with
  | none => acc ++ [(item.p.id, item)]
  | some kv => if item.rank < kv.2.rank then upsert acc item.p.id item else acc

/-- `uniqueMapped` (route.ts lines 187-195): the `Map`-reduce dedupe,
keeping per `provider_id` the entry of strictly lowest rank. -/
def uniqueMapped (body : ProviderQuery) (rows : List ProviderSkillRow) : List MappedItem :=
  ((mapped body rows).foldl dedupeStep []).map (·.2)

/-- JSON-ish values, to state which keys a projected record carries. -/
inductive JVal
  | str (s : String)
  | int (n : Int)
  | bool (b : Bool)
  | null
  | obj (fields : List (String × JVal))

def optStr : Option String → JVal
  | some s => .str s
  | none => .null

def optInt : Option Int → JVal
  | some n => .int n
  | none => .null

def modeStr : DeliveryMode → String
  | .Physical => "Physical"
  | .Online => "Online"
  | .Hybrid => "Hybrid"

def optMode : Option DeliveryMode → JVal
  | some m => .str (modeStr m)
  | none => .null

def providerTypeStr : ProviderType → String
  | .Individual => "Individual"
  | .TrainingCenter => "TrainingCenter"

/-- The locked projection (route.ts lines 199-215): exactly these keys,
in source order; no `phone`, `whatsapp`, `address` or capability keys. -/
def lockedRecord (x : MappedItem) : List (String × JVal) :=
  [("provider_id", .str x.p.id),
   ("name", .str x.p.name),
   ("provider_type", .str (providerTypeStr x.p.provider_type)),
   ("state", .str x.p.state),
   ("city", .str x.p.city),
   ("area", optStr x.p.area),
   ("mode_supported", optMode (match x.row.mode_supported with
                               | some m => some m
                               | none => x.p.mode_supported)),
   ("physical_delivery_percent", .int x.physicalPct),
   ("course_fee_min_ngn", optInt x.row.course_fee_min_ngn),
   ("course_fee_max_ngn", optInt x.row.course_fee_max_ngn),
   ("duration_weeks", optInt x.row.duration_weeks),
   ("rank", .int x.rank)]

/-- The unlocked projection (route.ts lines 226-250): full record
including contact fields and capabilities. -/
def unlockedRecord (x : MappedItem) : List (String × JVal) :=
  [("provider_id", .str x.p.id),
   ("name", .str x.p.name),
   ("provider_type", .str (providerTypeStr x.p.provider_type)),
   ("phone", optStr x.p.phone),
   ("whatsapp", optStr x.p.whatsapp),
   ("state", .str x.p.state),
   ("city", .str x.p.city),
   ("area", optStr x.p.area),
   ("address", optStr x.p.address),
   ("mode_supported", optMode (match x.row.mode_supported with
                               | some m => some m
                               | none => x.p.mode_supported)),
   ("physical_delivery_percent", .int x.physicalPct),
   ("course_fee_min_ngn", optInt x.row.course_fee_min_ngn),
   ("course_fee_max_ngn", optInt x.row.course_fee_max_ngn),
   ("duration_weeks", optInt x.row.duration_weeks),
   ("capabilities", .obj [("has_power_backup", .bool x.p.has_power_backup),
                          ("has_training_laptops", .bool x.p.has_training_laptops),
                          ("has_internet", .bool x.p.has_internet)]),
   ("rank", .int x.rank)]

/-- The provider matcher's response body (`providers` field), for a given
unlock state: the projection applied to `uniqueMapped`. -/
def matchProviders (body : ProviderQuery) (isUnlocked : Bool)
    (rows : List ProviderSkillRow) : List (List (String × JVal)) :=
  if isUnlocked then (uniqueMapped body rows).map unlockedRecord
  else (uniqueMapped body rows).map lockedRecord

end S2E

namespace S2E

/-! ### Spec-side definitions (for refinement-style comparison)

These follow the words of the specification / claims, not the source, and
exist only to be compared against the source-derived definitions above. -/

/-- Fuel-driven core of `dedupeKeepLowest` (the fuel is only a structural
recursion device; it is always instantiated at the list's length, which
the recursion never exhausts). -/
def dklAux : Nat → List MappedItem → List MappedItem
  | _, [] => []
  | 0, _ :: _ => []
  | n + 1, x :: t =>
    ((t.filter (fun y => y.p.id == x.p.id)).foldl
      (fun b y => if y.rank < b.rank then y else b) x)
    :: dklAux n (t.filter (fun y => ¬(y.p.id == x.p.id)))

/-- Spec's words: "deduplicate by provider identity keeping the lowest
(best) rank seen" — for each identity, in order of first appearance, the
entry of lowest rank (the earliest such entry on ties). -/
def dedupeKeepLowest (l : List MappedItem) : List MappedItem := dklAux l.length l

/-- Fuel-driven core of `dedupeByIdKeepFirst`. -/
def dbfAux : Nat → List MappedItem → List MappedItem
  | _, [] => []
  | 0, _ :: _ => []
  | n + 1, x :: t => x :: dbfAux n (t.filter (fun y => ¬(y.p.id == x.p.id)))

/-- Keep the first entry seen for each provider identity. -/
def dedupeByIdKeepFirst (l : List MappedItem) : List MappedItem := dbfAux l.length l

/-- The provider-matching composition in the order claim C4 states it:
threshold filter, THEN dedupe keeping lowest rank, THEN sort ascending by
rank, THEN truncate to 10. -/
def claimedMatcherCore (body : ProviderQuery) (rows : List ProviderSkillRow) :
    List MappedItem :=
  (stableSortBy (fun a b => decide (a.rank < b.rank))
    (dedupeKeepLowest
      ((rows.filterMap (rankRow body)).filter (fun x => decide (x.physicalPct ≥ 10))))).take 10

end S2E

namespace S2E

/-! ### Concrete fixtures (for witnesses and counterexamples) -/

def userBase : AssessmentPayload :=
  { session_id := none
    state := "Lagos"
    city := "Ikeja"
    area := none
    equipment_access := .laptop_pc
    computer_proficiency := some 3
    seed_capital := .below_50
    utility_reliability := .stable
    workspace_preference := .mix
    social_battery := .Mix
    mobility := .Hybrid
    problem_instinct := .Analytical
    math_logic_comfort := .Moderate
    patience_level := .Moderate
    learning_style := .continuous
    income_urgency := .long
    primary_interest := .Build }

def skillBase : SkillRow :=
  { skill_code := "s1"
    name := "Skill One"
    category := "craft"
    industry := "services"
    min_budget_naira := 10000
    max_budget_naira := some 20000
    power_need := .Low
    internet_need := .Low
    personality := .Mix
    prerequisite_proficiency := "Basic_Smartphone"
    primary_goal := .Build
    mental_model := .Analytical
    math_logic_intensity := .Low
    patience_level := .Moderate
    daily_activities := none
    time_to_learn_months := some 2
    time_to_earn_months := some 2
    work_location := .Hybrid
    portability := "high"
    learning_curve := "easy"
    important_constraints := none }

/-- Profile with no utility reliability at all. -/
def userNone : AssessmentPayload := { userBase with utility_reliability := .none }

/-- Skill with both power-need and internet-need at the maximum rank,
cheap enough to pass the stage-1 budget check. -/
def skillHHcheap : SkillRow :=
  { skillBase with skill_code := "hh", name := "HH Skill",
                   power_need := .High, internet_need := .High }

/-- Same maximum-demand skill, too expensive for the `below_50` bracket. -/
def skillHH50k : SkillRow := { skillHHcheap with min_budget_naira := 50000 }

/-- Skill requiring a computer, so that a `none`-equipment profile
stage-1-excludes it. -/
def skillPC : SkillRow :=
  { skillBase with skill_code := "pc", name := "PC Skill",
                   prerequisite_proficiency := "Basic_Computer" }

def userNoTools : AssessmentPayload := { userBase with equipment_access := .none }

def llmMeta0 : LLMMeta := { model := "gemini-2.0-flash", version := "1" }

/-- A schema-shaped response with no recommendations at all. -/
def respEmpty : LLMRecommendationResponse := { recommendations := [], meta := llmMeta0 }

/-- A response recommending the shortlisted skill `s1`. -/
def respS1 : LLMRecommendationResponse :=
  { recommendations :=
      [{ skill_code := "s1", score := 88,
         reasons := ["r1", "r2", "r3"], badges := [], warnings := [] }]
    meta := llmMeta0 }

def provA : Provider :=
  { id := "A"
    name := "Provider A"
    provider_type := .TrainingCenter
    phone := some "0801"
    whatsapp := some "0802"
    state := "L"
    city := "C"
    area := some "Ar"
    address := some "1 Road"
    physical_delivery_percent := some 50
    mode_supported := some .Physical
    has_power_backup := true
    has_training_laptops := true
    has_internet := true }

/-- Same identity as `provA` but without an area (locality rank 2 when
the query names an area). -/
def provA2 : Provider := { provA with area := none }

/-- A distinct provider in another city of the same state (rank 3). -/
def provB : Provider := { provA with id := "B", city := "D" }

def rowFor (p : Provider) : ProviderSkillRow :=
  { skill_code := "s1"
    course_fee_min_ngn := some 10000
    course_fee_max_ngn := some 20000
    duration_weeks := some 4
    physical_delivery_percent := none
    mode_supported := none
    providers := some p }

def bodyNoArea : ProviderQuery := { state := "L", city := "C", area := none }

def bodyArea : ProviderQuery := { state := "L", city := "C", area := some "Ar" }

/-- Eleven rows: ten for provider `A` (all rank 2 under `bodyNoArea`) and
one for provider `B` (rank 3). -/
def rowsManyA : List ProviderSkillRow :=
  List.replicate 10 (rowFor provA) ++ [rowFor provB]

end S2E

namespace S2E

/-- The single recommendation the deterministic pipeline produces for
`userNone` against `[skillBase, skillHHcheap]` (computed value, used as a
concrete witness input). -/
def recC5 : Recommendation :=
  { skill_code := "s1"
    skill_name := "Skill One"
    score := 100
    reasons := [reasonPersonality, reasonMental, reasonInterest, reasonPatience,
                reasonBudget skillBase, reasonEnvironment]
    badges := []
    warnings := [] }

/-- The single recommendation the AI branch produces for `respS1` over the
`userBase` / `[skillBase]` shortlist (computed value, witness input). -/
def recC8 : Recommendation :=
  { skill_code := "s1"
    skill_name := "Skill One"
    score := 88
    reasons := ["r1", "r2", "r3"]
    badges := []
    warnings := [] }

/-! ### General lemmas about the sort and dedupe models -/

theorem length_insertS (precede : α → α → Bool) (a : α) (l : List α) :
    (insertS precede a l).length = l.length + 1 := by
  induction l with
  | nil => rfl
  | cons b t ih =>
    simp only [insertS]
    split <;> simp [ih]

theorem length_stableSortBy (precede : α → α → Bool) (l : List α) :
    (stableSortBy precede l).length = l.length := by
  induction l with
  | nil => rfl
  | cons a t ih => simp [stableSortBy, length_insertS, ih]

theorem perm_insertS (precede : α → α → Bool) (a : α) (l : List α) :
    (insertS precede a l).Perm (a :: l) := by
  induction l with
  | nil => rfl
  | cons b t ih =>
    simp only [insertS]
    split
    · exact ((ih.cons b).trans (List.Perm.swap a b t))
    · rfl

theorem perm_stableSortBy (precede : α → α → Bool) (l : List α) :
    (stableSortBy precede l).Perm l := by
  induction l with
  | nil => rfl
  | cons a t ih =>
    exact (perm_insertS precede a (stableSortBy precede t)).trans (ih.cons a)

theorem mem_stableSortBy (precede : α → α → Bool) (l : List α) (x : α) :
    x ∈ stableSortBy precede l ↔ x ∈ l :=
  (perm_stableSortBy precede l).mem_iff

/-- Sortedness of the stable sort, for a strict-weak-order style
comparator: `R` is the non-strict companion of `precede`. -/
theorem pairwise_insertS (R : α → α → Prop) (precede : α → α → Bool)
    (hcompat : ∀ x y, precede x y = false → R y x)
    (hasym : ∀ x y, precede x y = true → R x y)
    (htrans : ∀ x y z, R x y → R y z → R x z)
    (a : α) (l : List α) (hl : l.Pairwise R) :
    (insertS precede a l).Pairwise R := by
  induction l with
  | nil => exact List.pairwise_singleton R a
  | cons b t ih =>
    simp only [insertS]
    by_cases hb : precede b a = true
    · rw [if_pos hb]
      refine List.Pairwise.cons ?_ (ih (List.pairwise_cons.mp hl).2)
      intro c hc
      rcases List.mem_cons.mp ((perm_insertS precede a t).mem_iff.mp hc) with hc | hc
      · exact hc ▸ hasym b a hb
      · exact (List.pairwise_cons.mp hl).1 c hc
    · have hb' : precede b a = false := by
        cases h : precede b a with
        | false => rfl
        | true => exact absurd h hb
      rw [if_neg hb]
      refine List.Pairwise.cons ?_ hl
      intro c hc
      rcases List.mem_cons.mp hc with hc | hc
      · exact hc ▸ hcompat b a hb'
      · exact htrans a b c (hcompat b a hb') ((List.pairwise_cons.mp hl).1 c hc)

theorem pairwise_stableSortBy (R : α → α → Prop) (precede : α → α → Bool)
    (hcompat : ∀ x y, precede x y = false → R y x)
    (hasym : ∀ x y, precede x y = true → R x y)
    (htrans : ∀ x y z, R x y → R y z → R x z)
    (l : List α) :
    (stableSortBy precede l).Pairwise R := by
  induction l with
  | nil => simp [stableSortBy]
  | cons a t ih =>
    exact pairwise_insertS R precede hcompat hasym htrans a _ ih

theorem foldl_minrank (ys : List MappedItem) :
    ∀ b : MappedItem, (∀ y ∈ ys, b.rank ≤ y.rank) →
      ys.foldl (fun b y => if y.rank < b.rank then y else b) b = b := by
  induction ys with
  | nil => intro b _; rfl
  | cons y t ih =>
    intro b hb
    rw [List.foldl_cons, if_neg (not_lt.mpr (hb y (List.mem_cons_self y t)))]
    exact ih b (fun z hz => hb z (List.mem_cons_of_mem y hz))

theorem dbfAux_fuel (n : Nat) :
    ∀ (m : Nat) (l : List MappedItem), l.length ≤ n → l.length ≤ m →
      dbfAux n l = dbfAux m l := by
  induction n with
  | zero =>
    intro m l h1 _
    have hl : l = [] := List.eq_nil_of_length_eq_zero (Nat.le_zero.mp h1)
    subst hl
    cases m <;> rfl
  | succ n ih =>
    intro m l h1 h2
    match l, h1, h2 with
    | [], _, _ => cases m <;> rfl
    | x :: t, h1, h2 =>
      match m, h2 with
      | m + 1, h2 =>
        simp only [dbfAux]
        have hf := List.length_filter_le (fun y => ¬(y.p.id == x.p.id)) t
        simp only [List.length_cons] at h1 h2
        exact congrArg _ (ih m _ (by omega) (by omega))

theorem dedupeByIdKeepFirst_cons (x : MappedItem) (r : List MappedItem) :
    dedupeByIdKeepFirst (x :: r)
      = x :: dedupeByIdKeepFirst (r.filter (fun y => ¬(y.p.id == x.p.id))) := by
  unfold dedupeByIdKeepFirst
  simp only [List.length_cons, dbfAux]
  exact congrArg _ (dbfAux_fuel r.length _ _ (List.length_filter_le _ r) le_rfl)

theorem dklAux_eq_dbfAux (n : Nat) :
    ∀ l : List MappedItem, l.length ≤ n →
      l.Pairwise (fun a b => a.rank ≤ b.rank) → dklAux n l = dbfAux n l := by
  induction n with
  | zero =>
    intro l h _
    have hl : l = [] := List.eq_nil_of_length_eq_zero (Nat.le_zero.mp h)
    subst hl; rfl
  | succ n ih =>
    intro l h hp
    match l, h, hp with
    | [], _, _ => rfl
    | x :: t, h, hp =>
      simp only [dklAux, dbfAux]
      have hp' := List.pairwise_cons.mp hp
      have hhead :
          (t.filter (fun y => y.p.id == x.p.id)).foldl
            (fun b y => if y.rank < b.rank then y else b) x = x :=
        foldl_minrank _ x (fun y hy => hp'.1 y (List.mem_filter.mp hy).1)
      rw [hhead]
      have hlen : (t.filter (fun y => ¬(y.p.id == x.p.id))).length ≤ n := by
        have := List.length_filter_le (fun y => ¬(y.p.id == x.p.id)) t
        simp only [List.length_cons] at h
        omega
      exact congrArg _
        (ih _ hlen (List.Pairwise.sublist (List.filter_sublist _) hp'.2))

theorem dedupeKeepLowest_eq_of_sorted (l : List MappedItem)
    (hp : l.Pairwise (fun a b => a.rank ≤ b.rank)) :
    dedupeKeepLowest l = dedupeByIdKeepFirst l :=
  dklAux_eq_dbfAux l.length l le_rfl hp

end S2E

namespace S2E

theorem mapped_pairwise (body : ProviderQuery) (rows : List ProviderSkillRow) :
    (mapped body rows).Pairwise (fun a b => a.rank ≤ b.rank) := by
  unfold mapped
  refine List.Pairwise.sublist (List.take_sublist _ _) ?_
  refine pairwise_stableSortBy _ _ ?_ ?_ ?_ _
  · intro x y h
    simp only [decide_eq_false_iff_not, not_lt] at h
    exact h
  · intro x y h
    simp only [decide_eq_true_eq] at h
    exact le_of_lt h
  · intro x y z h1 h2
    exact le_trans h1 h2

theorem foldl_dedupeStep_eq (l : List MappedItem) :
    ∀ acc : List (String × MappedItem),
      l.Pairwise (fun a b => a.rank ≤ b.rank) →
      (∀ kv ∈ acc, ∀ y ∈ l, kv.1 = y.p.id → kv.2.rank ≤ y.rank) →
      (l.foldl dedupeStep acc).map (·.2)
        = acc.map (·.2)
          ++ dedupeByIdKeepFirst
              (l.filter (fun y => (acc.find? (fun kv => kv.1 == y.p.id)).isNone)) := by
  induction l with
  | nil =>
    intro acc _ _
    simp [dedupeByIdKeepFirst, dbfAux]
  | cons x t ih =>
    intro acc hp hinv
    have hp' := List.pairwise_cons.mp hp
    rw [List.foldl_cons]
    rcases hfind : acc.find? (fun kv => kv.1 == x.p.id) with _ | kv
    · -- fresh key: append
      have hstep : dedupeStep acc x = acc ++ [(x.p.id, x)] := by
        simp [dedupeStep, hfind]
      rw [hstep,
        ih (acc ++ [(x.p.id, x)]) hp'.2 (by
          intro kv hkv y hy hid
          rcases List.mem_append.mp hkv with h | h
          · exact hinv kv h y (List.mem_cons_of_mem x hy) hid
          · simp only [List.mem_singleton] at h
            subst h
            exact hp'.1 y hy)]
      rw [List.filter_cons, if_pos (by simp [hfind])]
      rw [dedupeByIdKeepFirst_cons, List.map_append, List.append_assoc]
      refine congrArg _ ?_
      simp only [List.map_cons, List.map_nil, List.singleton_append]
      refine congrArg _ ?_
      rw [List.filter_filter]
      refine congrArg _ (List.filter_congr ?_)
      intro y hy
      rcases hy2 : acc.find? (fun kv => kv.1 == y.p.id) with _ | kv2
      · simp only [List.find?_append, hy2, Option.none_or]
        simp only [List.find?_singleton]
        by_cases hxy : x.p.id = y.p.id
        · simp [hxy]
        · simp [hxy, Ne.symm hxy]
      · simp [List.find?_append, hy2]
    · -- existing key: no change (the stored rank is already minimal)
      have hkey : kv.1 = x.p.id := by
        have := List.find?_some hfind
        simpa using this
      have hle : kv.2.rank ≤ x.rank :=
        hinv kv (List.mem_of_find?_eq_some hfind) x (List.mem_cons_self x t) hkey
      have hstep : dedupeStep acc x = acc := by
        simp [dedupeStep, hfind, not_lt.mpr hle]
      rw [hstep,
        ih acc hp'.2
          (fun kv' h y hy hid => hinv kv' h y (List.mem_cons_of_mem x hy) hid)]
      rw [List.filter_cons, if_neg (by simp [hfind])]

theorem uniqueMapped_eq_keepFirst (body : ProviderQuery) (rows : List ProviderSkillRow) :
    uniqueMapped body rows = dedupeByIdKeepFirst (mapped body rows) := by
  unfold uniqueMapped
  rw [foldl_dedupeStep_eq (mapped body rows) [] (mapped_pairwise body rows)
    (by intro kv h; exact absurd h (List.not_mem_nil kv))]
  simp only [List.map_nil, List.nil_append]
  refine congrArg _ (List.filter_congr ?_ |>.trans (List.filter_true _))
  intro y _
  rfl

end S2E

namespace S2E

/-! ### Lemmas about the deterministic pipeline -/

theorem crossWarn_length (u : AssessmentPayload) (scored : List ScoredItem)
    (out : List Recommendation) : (crossWarn u scored out).length = out.length := by
  unfold crossWarn
  split
  · split
    · dsimp only
      split <;> simp
    · rfl
  · rfl

theorem crossWarn_fields (u : AssessmentPayload) (scored : List ScoredItem)
    (out : List Recommendation) :
    ∀ r ∈ crossWarn u scored out,
      ∃ r0 ∈ out, r.skill_code = r0.skill_code ∧ r.skill_name = r0.skill_name
        ∧ r.score = r0.score := by
  intro r hr
  unfold crossWarn at hr
  split at hr
  · split at hr
    next =>
      dsimp only at hr
      split at hr
      · rcases List.mem_cons.mp hr with hr | hr
        · subst hr
          exact ⟨_, List.mem_cons_self _ _, rfl, rfl, rfl⟩
        · exact ⟨r, List.mem_cons_of_mem _ hr, rfl, rfl, rfl⟩
      · exact ⟨r, hr, rfl, rfl, rfl⟩
    next => exact ⟨r, hr, rfl, rfl, rfl⟩
  · exact ⟨r, hr, rfl, rfl, rfl⟩

theorem pipeline_of_stage1_empty (u : AssessmentPayload) (skills : List SkillRow)
    (h : stage1Filter u skills = []) :
    runRecommendationPipeline u skills = ((sortByBudget skills).take 3).map fallbackRec := by
  simp [runRecommendationPipeline, h]

theorem pipeline_of_stage1_ne (u : AssessmentPayload) (skills : List SkillRow)
    (h : ¬stage1Filter u skills = []) :
    runRecommendationPipeline u skills =
      crossWarn u (scoredSorted u (stage2List u (stage1Filter u skills)))
        (((scoredSorted u (stage2List u (stage1Filter u skills))).take 5).map (annotate u)) := by
  simp [runRecommendationPipeline, h]

theorem scoreSkill_score_bounds (u : AssessmentPayload) (it : Stage2Item) :
    0 ≤ (scoreSkill u it).score ∧ (scoreSkill u it).score ≤ 100 :=
  ⟨le_max_left 0 _, max_le (by norm_num) (min_le_left 100 _)⟩

theorem mem_stage2List (u : AssessmentPayload) (sl : List SkillRow) (it : Stage2Item)
    (h : it ∈ stage2List u sl) : it.skill ∈ sl ∧ stage2Keep u it.skill = true := by
  unfold stage2List at h
  rw [List.mem_filter] at h
  obtain ⟨h1, h2⟩ := h
  rw [List.mem_map] at h1
  obtain ⟨s, hs, rfl⟩ := h1
  exact ⟨hs, h2⟩

theorem stage2Keep_none_highhigh (u : AssessmentPayload) (s : SkillRow)
    (hu : u.utility_reliability = .none) (hk : stage2Keep u s = true) :
    ¬(s.power_need = .High ∧ s.internet_need = .High) := by
  unfold stage2Keep at hk
  rw [if_neg (by simp [hu])] at hk
  intro ⟨hp, hi⟩
  rw [hp, hi] at hk
  simp [powerNeedRank, internetNeedRank] at hk

theorem stage2List_of_ne_none (u : AssessmentPayload) (sl : List SkillRow)
    (hu : u.utility_reliability ≠ .none) :
    stage2List u sl = sl.map (fun s => ⟨s, stage2Delta u s⟩) := by
  unfold stage2List
  apply List.filter_eq_self.mpr
  intro it _
  simp [stage2Keep, hu]

theorem mem_stage1Filter (u : AssessmentPayload) (skills : List SkillRow) (s : SkillRow)
    (h : s ∈ stage1Filter u skills) : s ∈ skills :=
  (List.mem_filter.mp h).1

theorem mem_pipeline_main (u : AssessmentPayload) (skills : List SkillRow)
    (h1 : ¬stage1Filter u skills = []) :
    ∀ r ∈ runRecommendationPipeline u skills,
      ∃ it ∈ stage2List u (stage1Filter u skills),
        r.skill_code = it.skill.skill_code ∧ r.skill_name = it.skill.name
          ∧ r.score = (scoreSkill u it).score := by
  intro r hr
  rw [pipeline_of_stage1_ne u skills h1] at hr
  obtain ⟨r0, hr0, hcode, hname, hscore⟩ := crossWarn_fields _ _ _ r hr
  rw [List.mem_map] at hr0
  obtain ⟨si, hsi, rfl⟩ := hr0
  have hsi' : si ∈ scoredSorted u (stage2List u (stage1Filter u skills)) :=
    List.mem_of_mem_take hsi
  rw [scoredSorted, mem_stableSortBy, List.mem_map] at hsi'
  obtain ⟨it, hit, rfl⟩ := hsi'
  exact ⟨it, hit, hcode, hname, hscore⟩

end S2E

namespace S2E

theorem sortByBudget_sorted (skills : List SkillRow) :
    (sortByBudget skills).Pairwise
      (fun a b => a.min_budget_naira ≤ b.min_budget_naira) := by
  refine pairwise_stableSortBy _ _ ?_ ?_ ?_ _
  · intro x y h
    simp only [decide_eq_false_iff_not, not_lt] at h
    exact h
  · intro x y h
    simp only [decide_eq_true_eq] at h
    exact le_of_lt h
  · intro x y z h1 h2
    exact le_trans h1 h2

/-- Unfolding equation for the adapter on a thrown call. -/
theorem rwgof_failure_eq (user : AssessmentPayload) (skills : List SkillRow) :
    recommendWithGeminiOrFallback user skills .failure
      = if ((shortlistWithDeltas user skills).1).isEmpty
        then runRecommendationPipeline user skills
        else runRecommendationPipeline user skills := rfl

/-- Unfolding equation for the adapter on a validated response. -/
theorem rwgof_success_eq (user : AssessmentPayload) (skills : List SkillRow)
    (v : LLMRecommendationResponse) :
    recommendWithGeminiOrFallback user skills (.success v)
      = if ((shortlistWithDeltas user skills).1).isEmpty
        then runRecommendationPipeline user skills
        else if (aiCandidates ((shortlistWithDeltas user skills).1) v).isEmpty
          then runRecommendationPipeline user skills
          else aiCandidates ((shortlistWithDeltas user skills).1) v := rfl

theorem aiCandidates_codes (sl : List SkillRow) (v : LLMRecommendationResponse)
    (r : Recommendation) (hr : r ∈ aiCandidates sl v) :
    r.skill_code ∈ sl.map SkillRow.skill_code := by
  unfold aiCandidates at hr
  have hr' := List.mem_of_mem_take hr
  rw [List.mem_map] at hr'
  obtain ⟨r0, hr0, rfl⟩ := hr'
  have hc := (List.mem_filter.mp hr0).2
  rw [List.contains_eq_any_beq, List.any_eq_true] at hc
  obtain ⟨c, hcmem, hbeq⟩ := hc
  rw [beq_iff_eq] at hbeq
  exact hbeq ▸ hcmem

end S2E

namespace S2E

/-! ### Claim theorems -/

/-- C2. For a language-model client whose call always throws — and also
when the validated response filters down to zero valid recommendations —
`recommendWithGeminiOrFallback` is total and returns exactly
`runRecommendationPipeline` on the same profile and the original,
unfiltered catalog (never the shortlist, never a partial result). -/
theorem gemini_failure_falls_back_to_pipeline :
    ∀ (user : AssessmentPayload) (skills : List SkillRow),
      recommendWithGeminiOrFallback user skills .failure
        = runRecommendationPipeline user skills
      ∧ ∀ v : LLMRecommendationResponse,
          aiCandidates (shortlistWithDeltas user skills).1 v = [] →
            recommendWithGeminiOrFallback user skills (.success v)
              = runRecommendationPipeline user skills := by
  intro user skills
  constructor
  · rw [rwgof_failure_eq]
    exact ite_self _
  · intro v hv
    rw [rwgof_success_eq, hv]
    simp

/-- Witness for C2: a concrete profile/catalog where the shortlist is
non-empty and a concrete validated response that filters to nothing; the
adapter falls back to the deterministic pipeline. -/
theorem gemini_failure_falls_back_to_pipeline_witness :
    aiCandidates (shortlistWithDeltas userBase [skillBase]).1 respEmpty = []
    ∧ recommendWithGeminiOrFallback userBase [skillBase] (.success respEmpty)
        = runRecommendationPipeline userBase [skillBase] :=
  ⟨rfl, (gemini_failure_falls_back_to_pipeline userBase [skillBase]).2 respEmpty rfl⟩

/-- C8. The adapter's AI branch returns either the deterministic fallback
or exactly `aiCandidates`, and every recommendation in `aiCandidates`
carries a skill code drawn from the shortlist that was sent to the model
(codes outside the shortlist are dropped even when schema-valid: the
response `v` here is arbitrary). -/
theorem ai_recommendation_codes_subset_of_shortlist :
    ∀ (user : AssessmentPayload) (skills : List SkillRow)
      (v : LLMRecommendationResponse),
      (recommendWithGeminiOrFallback user skills (.success v)
          = runRecommendationPipeline user skills
        ∨ recommendWithGeminiOrFallback user skills (.success v)
            = aiCandidates (shortlistWithDeltas user skills).1 v)
      ∧ ∀ r ∈ aiCandidates (shortlistWithDeltas user skills).1 v,
          r.skill_code ∈ ((shortlistWithDeltas user skills).1).map SkillRow.skill_code := by
  intro user skills v
  constructor
  · rw [rwgof_success_eq]
    by_cases h1 : ((shortlistWithDeltas user skills).1).isEmpty = true
    · rw [if_pos h1]
      exact Or.inl rfl
    · rw [if_neg h1]
      by_cases h2 : (aiCandidates ((shortlistWithDeltas user skills).1) v).isEmpty = true
      · rw [if_pos h2]
        exact Or.inl rfl
      · rw [if_neg h2]
        exact Or.inr rfl
  · intro r hr
    exact aiCandidates_codes _ v r hr

/-- Witness for C8: a concrete response recommending the shortlisted code
`s1`; the returned recommendation's code is in the shortlist. -/
theorem ai_recommendation_codes_subset_of_shortlist_witness :
    recC8 ∈ aiCandidates (shortlistWithDeltas userBase [skillBase]).1 respS1
    ∧ recC8.skill_code
        ∈ ((shortlistWithDeltas userBase [skillBase]).1).map SkillRow.skill_code :=
  ⟨by decide,
   (ai_recommendation_codes_subset_of_shortlist userBase [skillBase] respS1).2
     recC8 (by decide)⟩

/-- C3. With `unlocked = false` the provider matcher emits only locked
records: no returned record carries a `phone`, `whatsapp` or `address`
key (the keys are absent, not null-filled). -/
theorem locked_records_omit_contact_keys :
    ∀ (body : ProviderQuery) (rows : List ProviderSkillRow),
      ∀ rec ∈ matchProviders body false rows,
        "phone" ∉ rec.map Prod.fst ∧ "whatsapp" ∉ rec.map Prod.fst
          ∧ "address" ∉ rec.map Prod.fst := by
  intro body rows rec hrec
  have hm : matchProviders body false rows = (uniqueMapped body rows).map lockedRecord := rfl
  rw [hm, List.mem_map] at hrec
  obtain ⟨x, _, rfl⟩ := hrec
  have hkeys : (lockedRecord x).map Prod.fst =
      ["provider_id", "name", "provider_type", "state", "city", "area",
       "mode_supported", "physical_delivery_percent", "course_fee_min_ngn",
       "course_fee_max_ngn", "duration_weeks", "rank"] := rfl
  refine ⟨?_, ?_, ?_⟩ <;> rw [hkeys] <;> decide

/-- Witness for C3: one concrete ranked provider, returned locked, with
no contact keys. -/
theorem locked_records_omit_contact_keys_witness :
    lockedRecord ⟨rowFor provA, provA, 50, 2⟩
        ∈ matchProviders bodyNoArea false [rowFor provA]
    ∧ ("phone" ∉ (lockedRecord ⟨rowFor provA, provA, 50, 2⟩).map Prod.fst
       ∧ "whatsapp" ∉ (lockedRecord ⟨rowFor provA, provA, 50, 2⟩).map Prod.fst
       ∧ "address" ∉ (lockedRecord ⟨rowFor provA, provA, 50, 2⟩).map Prod.fst) := by
  have hmem : lockedRecord ⟨rowFor provA, provA, 50, 2⟩
      ∈ matchProviders bodyNoArea false [rowFor provA] := by
    rw [show matchProviders bodyNoArea false [rowFor provA]
        = [lockedRecord ⟨rowFor provA, provA, 50, 2⟩] from rfl]
    exact List.mem_singleton_self _
  exact ⟨hmem, locked_records_omit_contact_keys bodyNoArea [rowFor provA] _ hmem⟩

/-- Counterexample to C4 as stated: the claimed composition deduplicates
BEFORE sorting and truncating, but on eleven rows (ten for provider A at
rank 2, one for provider B at rank 3) the code returns one record where
the claimed composition returns two — the code truncates to 10 first, so
the duplicates crowd provider B out. -/
theorem matcher_differs_from_claimed_order :
    matchProviders bodyNoArea false rowsManyA
      ≠ (claimedMatcherCore bodyNoArea rowsManyA).map lockedRecord := by
  intro h
  have hlen := congrArg List.length h
  have h1 : (matchProviders bodyNoArea false rowsManyA).length = 1 := by decide
  have h2 : ((claimedMatcherCore bodyNoArea rowsManyA).map lockedRecord).length = 2 := by
    decide
  rw [h1, h2] at hlen
  exact absurd hlen (by decide)

/-- C4 amended: the matcher equals the composition with dedupe LAST —
drop rows below the effective physical-delivery threshold, sort ascending
by rank, truncate to the first 10 (`mapped`), and only then deduplicate
by provider identity keeping the lowest rank seen (`dedupeKeepLowest`),
before projecting. -/
theorem matcher_eq_filter_sort_truncate_dedupe :
    ∀ (body : ProviderQuery) (rows : List ProviderSkillRow),
      matchProviders body false rows
          = (dedupeKeepLowest (mapped body rows)).map lockedRecord
      ∧ matchProviders body true rows
          = (dedupeKeepLowest (mapped body rows)).map unlockedRecord := by
  intro body rows
  have h := uniqueMapped_eq_keepFirst body rows
  have h2 := dedupeKeepLowest_eq_of_sorted _ (mapped_pairwise body rows)
  constructor
  · show (uniqueMapped body rows).map lockedRecord = _
    rw [h, h2]
  · show (uniqueMapped body rows).map unlockedRecord = _
    rw [h, h2]

end S2E

namespace S2E

/-- C9. Two provider-skill rows for the same provider identity, attaining
ranks 2 and 1, both clearing the physical-delivery threshold: whichever
order the rows arrive in, exactly one item survives deduplication, and
its rank is 1. -/
theorem dedupe_two_rows_keeps_rank_one :
    ∀ (body : ProviderQuery) (r1 r2 : ProviderSkillRow) (p1 p2 : Provider),
      r1.providers = some p1 → r2.providers = some p2 →
      p1.id = p2.id →
      rankOf body p1 = 2 → rankOf body p2 = 1 →
      effectivePct r1 p1 ≥ 10 → effectivePct r2 p2 ≥ 10 →
      uniqueMapped body [r1, r2] = [⟨r2, p2, effectivePct r2 p2, 1⟩]
      ∧ uniqueMapped body [r2, r1] = [⟨r2, p2, effectivePct r2 p2, 1⟩] := by
  intro body r1 r2 p1 p2 h1 h2 hid hr1 hr2 hp1 hp2
  have hbeq : (p2.id == p1.id) = true := by rw [beq_iff_eq, hid]
  constructor
  · unfold uniqueMapped mapped
    simp only [List.filterMap_cons, List.filterMap_nil, rankRow, h1, h2, hr1, hr2]
    rw [List.filter_cons, List.filter_cons, List.filter_nil,
      if_pos (by simpa using hp1), if_pos (by simpa using hp2)]
    simp only [stableSortBy, insertS, decide_eq_true_eq]
    rw [if_pos (by norm_num)]
    simp only [List.take_succ_cons, List.take_nil, List.foldl_cons, List.foldl_nil,
      dedupeStep, List.find?_nil, List.nil_append]
    rw [List.find?_singleton]
    simp only [hbeq, if_true]
    norm_num
  · unfold uniqueMapped mapped
    simp only [List.filterMap_cons, List.filterMap_nil, rankRow, h1, h2, hr1, hr2]
    rw [List.filter_cons, List.filter_cons, List.filter_nil,
      if_pos (by simpa using hp2), if_pos (by simpa using hp1)]
    simp only [stableSortBy, insertS, decide_eq_true_eq]
    rw [if_neg (by norm_num)]
    simp only [List.take_succ_cons, List.take_nil, List.foldl_cons, List.foldl_nil,
      dedupeStep, List.find?_nil, List.nil_append]
    rw [List.find?_singleton]
    simp only [hbeq, if_true]
    norm_num

/-- Witness for C9: providers `provA2` (rank 2, no area) and `provA`
(rank 1) share identity `A`; one item returns, with rank 1. -/
theorem dedupe_two_rows_keeps_rank_one_witness :
    (rowFor provA2).providers = some provA2
    ∧ (rowFor provA).providers = some provA
    ∧ provA2.id = provA.id
    ∧ rankOf bodyArea provA2 = 2
    ∧ rankOf bodyArea provA = 1
    ∧ effectivePct (rowFor provA2) provA2 ≥ 10
    ∧ effectivePct (rowFor provA) provA ≥ 10
    ∧ (uniqueMapped bodyArea [rowFor provA2, rowFor provA]
          = [⟨rowFor provA, provA, effectivePct (rowFor provA) provA, 1⟩]
      ∧ uniqueMapped bodyArea [rowFor provA, rowFor provA2]
          = [⟨rowFor provA, provA, effectivePct (rowFor provA) provA, 1⟩]) :=
  ⟨rfl, rfl, rfl, by decide, by decide, by decide, by decide,
   dedupe_two_rows_keeps_rank_one bodyArea (rowFor provA2) (rowFor provA) provA2 provA
     rfl rfl rfl (by decide) (by decide) (by decide) (by decide)⟩

/-- Counterexample to C1 as stated: a non-empty catalog and a valid
profile (`utility_reliability = none`, the one skill maxed on both needs
but cheap and stage-1-feasible) for which the pipeline returns ZERO
recommendations — the stage-2 hard elimination runs after the empty-filter
fallback check, so "between 1 and 5" fails. -/
theorem pipeline_can_return_empty_on_nonempty_catalog :
    runRecommendationPipeline userNone [skillHHcheap] = []
    ∧ ([skillHHcheap] : List SkillRow) ≠ [] := by
  constructor
  · decide
  · decide

/-- C1 amended: for every profile and non-empty catalog the pipeline
returns at most 5 recommendations, every score is an integer in [0, 100],
and the output is non-empty whenever utility reliability is not `none`
(only the `none` stage-2 hard elimination can empty it). -/
theorem pipeline_output_count_and_score_bounds :
    ∀ (user : AssessmentPayload) (skills : List SkillRow), skills ≠ [] →
      (runRecommendationPipeline user skills).length ≤ 5
      ∧ (∀ r ∈ runRecommendationPipeline user skills, 0 ≤ r.score ∧ r.score ≤ 100)
      ∧ (user.utility_reliability ≠ .none → runRecommendationPipeline user skills ≠ []) := by
  intro user skills hne
  refine ⟨?_, ?_, ?_⟩
  · by_cases hs : stage1Filter user skills = []
    · rw [pipeline_of_stage1_empty user skills hs]
      simp only [List.length_map, List.length_take]
      omega
    · rw [pipeline_of_stage1_ne user skills hs, crossWarn_length]
      simp only [List.length_map, List.length_take]
      omega
  · intro r hr
    by_cases hs : stage1Filter user skills = []
    · rw [pipeline_of_stage1_empty user skills hs] at hr
      rw [List.mem_map] at hr
      obtain ⟨s, _, rfl⟩ := hr
      exact ⟨by norm_num [fallbackRec], by norm_num [fallbackRec]⟩
    · obtain ⟨it, _, _, _, hscore⟩ := mem_pipeline_main user skills hs r hr
      rw [hscore]
      exact scoreSkill_score_bounds user it
  · intro hu
    by_cases hs : stage1Filter user skills = []
    · rw [pipeline_of_stage1_empty user skills hs]
      intro heq
      have hlen := congrArg List.length heq
      simp only [List.length_map, List.length_take, sortByBudget,
        length_stableSortBy, List.length_nil] at hlen
      have hpos := List.length_pos.mpr hne
      omega
    · rw [pipeline_of_stage1_ne user skills hs]
      intro heq
      have hlen := congrArg List.length heq
      rw [crossWarn_length] at hlen
      simp only [List.length_map, List.length_take, scoredSorted,
        length_stableSortBy, stage2List_of_ne_none user _ hu,
        List.length_nil] at hlen
      have hpos := List.length_pos.mpr hs
      omega

/-- Witness for C1 (amended): the bounds at a concrete profile/catalog. -/
theorem pipeline_output_count_and_score_bounds_witness :
    ([skillBase] : List SkillRow) ≠ []
    ∧ ((runRecommendationPipeline userBase [skillBase]).length ≤ 5
      ∧ (∀ r ∈ runRecommendationPipeline userBase [skillBase],
          0 ≤ r.score ∧ r.score ≤ 100)
      ∧ (userBase.utility_reliability ≠ .none →
          runRecommendationPipeline userBase [skillBase] ≠ [])) :=
  ⟨by decide, pipeline_output_count_and_score_bounds userBase [skillBase] (by decide)⟩

/-- Counterexample to C5 as stated: with utility reliability `none` and a
max-demand skill that stage 1 rejects on budget, the empty-filter
fallback returns that very skill — so "never appears, for every catalog"
fails. -/
theorem maxdemand_skill_appears_via_fallback :
    userNone.utility_reliability = .none
    ∧ skillHH50k.power_need = .High
    ∧ skillHH50k.internet_need = .High
    ∧ runRecommendationPipeline userNone [skillHH50k] = [fallbackRec skillHH50k] := by
  refine ⟨rfl, rfl, rfl, by decide⟩

/-- C5 amended: when utility reliability is `none` AND the stage-1 filter
keeps at least one skill (so the budget fallback is not taken), every
returned recommendation derives from a catalog skill whose power-need and
internet-need are not both at the maximum — a both-`High` skill never
appears. -/
theorem no_maxdemand_skill_without_fallback :
    ∀ (user : AssessmentPayload) (skills : List SkillRow),
      user.utility_reliability = .none →
      stage1Filter user skills ≠ [] →
      ∀ r ∈ runRecommendationPipeline user skills,
        ∃ s ∈ skills, r.skill_code = s.skill_code ∧ r.skill_name = s.name
          ∧ ¬(s.power_need = .High ∧ s.internet_need = .High) := by
  intro user skills hu hs r hr
  obtain ⟨it, hit, hcode, hname, _⟩ := mem_pipeline_main user skills hs r hr
  obtain ⟨hmem, hkeep⟩ := mem_stage2List user _ it hit
  exact ⟨it.skill, mem_stage1Filter user skills it.skill hmem, hcode, hname,
    stage2Keep_none_highhigh user it.skill hu hkeep⟩

/-- Witness for C5 (amended): concrete catalog with a max-demand skill
and a feasible one; the sole output derives from the feasible skill. -/
theorem no_maxdemand_skill_without_fallback_witness :
    userNone.utility_reliability = .none
    ∧ stage1Filter userNone [skillBase, skillHHcheap] ≠ []
    ∧ recC5 ∈ runRecommendationPipeline userNone [skillBase, skillHHcheap]
    ∧ ∃ s ∈ [skillBase, skillHHcheap],
        recC5.skill_code = s.skill_code ∧ recC5.skill_name = s.name
          ∧ ¬(s.power_need = .High ∧ s.internet_need = .High) :=
  ⟨rfl, by decide, by decide,
   no_maxdemand_skill_without_fallback userNone [skillBase, skillHHcheap] rfl
     (by decide) recC5 (by decide)⟩

/-- Counterexample to C6 as stated: on a one-skill catalog whose skill
stage 1 excludes, the pipeline returns one recommendation, not "exactly
the 3 skills with the smallest min_budget"; and on the empty catalog
(every skill excluded, vacuously) it returns the empty array the claim
rules out. -/
theorem fallback_small_catalog_counterexample :
    stage1Filter userNoTools [skillPC] = []
    ∧ (runRecommendationPipeline userNoTools [skillPC]).length = 1
    ∧ stage1Filter userNoTools ([] : List SkillRow) = []
    ∧ runRecommendationPipeline userNoTools ([] : List SkillRow) = [] :=
  ⟨by decide, by decide, rfl, rfl⟩

/-- C6 amended: when stage 1 excludes every skill the pipeline returns
the first `min 3 n` skills of the catalog stably sorted ascending by
`min_budget_naira`, each mapped to the fixed fallback recommendation; the
sorted list is a permutation of the catalog and is sorted by min budget,
and the result is non-empty whenever the catalog is. -/
theorem fallback_returns_cheapest_sorted :
    ∀ (user : AssessmentPayload) (skills : List SkillRow),
      stage1Filter user skills = [] →
      runRecommendationPipeline user skills = ((sortByBudget skills).take 3).map fallbackRec
      ∧ (sortByBudget skills).Perm skills
      ∧ (sortByBudget skills).Pairwise
          (fun a b => a.min_budget_naira ≤ b.min_budget_naira)
      ∧ (skills ≠ [] → runRecommendationPipeline user skills ≠ []) := by
  intro user skills hs
  refine ⟨pipeline_of_stage1_empty user skills hs, perm_stableSortBy _ _,
    sortByBudget_sorted skills, ?_⟩
  intro hne heq
  rw [pipeline_of_stage1_empty user skills hs] at heq
  have hlen := congrArg List.length heq
  simp only [List.length_map, List.length_take, sortByBudget,
    length_stableSortBy, List.length_nil] at hlen
  have hpos := List.length_pos.mpr hne
  omega

/-- Witness for C6 (amended): a profile with no tools against a catalog
of one computer-requiring skill. -/
theorem fallback_returns_cheapest_sorted_witness :
    stage1Filter userNoTools [skillPC] = []
    ∧ (runRecommendationPipeline userNoTools [skillPC]
          = ((sortByBudget [skillPC]).take 3).map fallbackRec
      ∧ (sortByBudget [skillPC]).Perm [skillPC]
      ∧ (sortByBudget [skillPC]).Pairwise
          (fun a b => a.min_budget_naira ≤ b.min_budget_naira)
      ∧ ([skillPC] ≠ ([] : List SkillRow) →
          runRecommendationPipeline userNoTools [skillPC] ≠ [])) :=
  ⟨by decide, fallback_returns_cheapest_sorted userNoTools [skillPC] (by decide)⟩

/-- C7. When the stage-1 filtered set is empty, the deterministic call
site takes the first 3 of the budget-sorted catalog while the AI
shortlist call site takes the first 25, both ignoring every other stage-1
constraint (the sort being a stable ascending sort by min budget over the
whole catalog). -/
theorem fallback_sizes_three_and_twentyfive :
    ∀ (user : AssessmentPayload) (skills : List SkillRow),
      stage1Filter user skills = [] →
      runRecommendationPipeline user skills = ((sortByBudget skills).take 3).map fallbackRec
      ∧ shortlistStage1 user skills = (sortByBudget skills).take 25
      ∧ (sortByBudget skills).Perm skills
      ∧ (sortByBudget skills).Pairwise
          (fun a b => a.min_budget_naira ≤ b.min_budget_naira) := by
  intro user skills hs
  refine ⟨pipeline_of_stage1_empty user skills hs, ?_, perm_stableSortBy _ _,
    sortByBudget_sorted skills⟩
  simp [shortlistStage1, hs]

/-- Witness for C7: the same empty-stage-1 profile/catalog. -/
theorem fallback_sizes_three_and_twentyfive_witness :
    stage1Filter userNoTools [skillPC] = []
    ∧ (runRecommendationPipeline userNoTools [skillPC]
          = ((sortByBudget [skillPC]).take 3).map fallbackRec
      ∧ shortlistStage1 userNoTools [skillPC] = (sortByBudget [skillPC]).take 25
      ∧ (sortByBudget [skillPC]).Perm [skillPC]
      ∧ (sortByBudget [skillPC]).Pairwise
          (fun a b => a.min_budget_naira ≤ b.min_budget_naira)) :=
  ⟨by decide, fallback_sizes_three_and_twentyfive userNoTools [skillPC] (by decide)⟩

/-- C10. Every recommendation produced by the empty-filter fallback
branch has score exactly 1, exactly the two fixed reason strings, no
badges, and exactly the one fixed warning string — stages 2-4 are not
applied to fallback items. -/
theorem fallback_item_shape :
    ∀ (user : AssessmentPayload) (skills : List SkillRow),
      stage1Filter user skills = [] →
      ∀ r ∈ runRecommendationPipeline user skills,
        r.score = 1 ∧ r.reasons = [fallbackReason1, fallbackReason2]
          ∧ r.badges = [] ∧ r.warnings = [fallbackWarning] := by
  intro user skills hs r hr
  rw [pipeline_of_stage1_empty user skills hs] at hr
  rw [List.mem_map] at hr
  obtain ⟨s, _, rfl⟩ := hr
  exact ⟨rfl, rfl, rfl, rfl⟩

/-- Witness for C10: the concrete fallback recommendation for `skillPC`. -/
theorem fallback_item_shape_witness :
    stage1Filter userNoTools [skillPC] = []
    ∧ fallbackRec skillPC ∈ runRecommendationPipeline userNoTools [skillPC]
    ∧ ((fallbackRec skillPC).score = 1
      ∧ (fallbackRec skillPC).reasons = [fallbackReason1, fallbackReason2]
      ∧ (fallbackRec skillPC).badges = []
      ∧ (fallbackRec skillPC).warnings = [fallbackWarning]) :=
  ⟨by decide, by decide,
   fallback_item_shape userNoTools [skillPC] (by decide) (fallbackRec skillPC) (by decide)⟩

end S2E
